import Mathlib

/-!
Shallow embedding of the `scialg` crate's adaptive ODE subsystem
(`src/vector.rs`, `src/ode/controller.rs`, `src/ode/stepper.rs`,
`src/ode/stepper/{euler,runge_kutta}.rs`, `src/ode.rs`).

Modelling conventions:
* Rust `f64` is modelled as the real numbers `ℝ`; `f64::powf` is `Real.rpow`,
  `f64::sqrt` is `Real.sqrt`, `f64::max`/`min` are `max`/`min`.
* `Vector<const N: usize>` (an `[f64; N]` wrapper) is a structure holding
  `Fin n → ℝ`; its componentwise operator impls become instances below.
* Rust panics (`panic!`, `assert_eq!`, `todo!`) are modelled as `Except.error`
  values of the inductive `VError`: the explicit length panic in `Vector::new`
  and the `assert_eq!(N, 3)` guard are both dimension violations
  (`VError.dimensionMismatch`), and `todo!()` is `VError.unimplemented`.
* `&mut self` methods become state-passing functions returning the new value
  of the receiver together with the Rust return value.
-/

namespace Scialg

noncomputable section

/-- Error kind used to model Rust panics in `src/vector.rs`: the
"length of input does not match dimensionality of vector" panic and the
`assert_eq!(N, 3)` assertion failure are `dimensionMismatch`; the `todo!()`
macro (an unconditional "not yet implemented" panic) is `unimplemented`. -/
inductive VError where
  | dimensionMismatch : VError
  | unimplemented : VError
deriving DecidableEq

/-- `Vector<const N: usize> { coeff: [f64; N] }` from `src/vector.rs`. -/
structure Vector (n : ℕ) where
  coeff : Fin n → ℝ

namespace Vector

/-- `Vector::new(coeff: &[f64])` from `src/vector.rs` lines 15-26: it panics
when the slice length differs from `N` and otherwise copies the components.
The panic is modelled as `Except.error VError.dimensionMismatch`. -/
def new (n : ℕ) (coeff : List ℝ) : Except VError (Vector n) :=
  if h : coeff.length = n then
    Except.ok ⟨fun i => coeff.get (Fin.cast h.symm i)⟩
  else
    Except.error VError.dimensionMismatch

/-- `impl Zero for Vector<N>`: the all-zero vector. -/
def zero (n : ℕ) : Vector n := ⟨fun _ => 0⟩

/-- `Vector::rotate` from `src/vector.rs` lines 102-121: `assert_eq!(N, 3)`
followed by `todo!()` — it fails for every input, with a dimension violation
when `N ≠ 3` and an unimplemented panic when `N = 3`. -/
def rotate {n : ℕ} (_v _axis : Vector n) (_theta : ℝ) : Except VError (Vector n) :=
  if n = 3 then Except.error VError.unimplemented
  else Except.error VError.dimensionMismatch

/-- `Vector::cross_product` from `src/vector.rs` lines 124-133:
`assert_eq!(N, 3)` followed by `todo!()` — it fails for every input, with a
dimension violation when `N ≠ 3` and an unimplemented panic when `N = 3`. -/
def cross_product {n : ℕ} (_v _other : Vector n) : Except VError (Vector n) :=
  if n = 3 then Except.error VError.unimplemented
  else Except.error VError.dimensionMismatch

end Vector

/-- `impl Add for Vector<N>`: componentwise addition. -/
instance {n : ℕ} : Add (Vector n) := ⟨fun a b => ⟨fun i => a.coeff i + b.coeff i⟩⟩

/-- `impl Sub for Vector<N>`: componentwise subtraction. -/
instance {n : ℕ} : Sub (Vector n) := ⟨fun a b => ⟨fun i => a.coeff i - b.coeff i⟩⟩

/-- `impl Mul<f64> for Vector<N>`: componentwise scaling. -/
instance {n : ℕ} : HMul (Vector n) ℝ (Vector n) := ⟨fun a r => ⟨fun i => a.coeff i * r⟩⟩

/-- `impl Div<f64> for Vector<N>`: componentwise division by a scalar. -/
instance {n : ℕ} : HDiv (Vector n) ℝ (Vector n) := ⟨fun a r => ⟨fun i => a.coeff i / r⟩⟩

/-- `Controller { h_next, err_old, rejected }` from `src/ode/controller.rs`. -/
structure Controller where
  h_next : ℝ
  err_old : ℝ
  rejected : Bool

namespace Controller

/-- `Controller::new()` from `src/ode/controller.rs` lines 8-14. -/
def new : Controller := { h_next := 0, err_old := 1e-4, rejected := false }

/-- `Controller::success(&mut self, err, h) -> (bool, f64)` from
`src/ode/controller.rs` lines 16-45, returning the updated controller
together with the `(bool, f64)` pair.  `powf` is real `rpow`. -/
def success (c : Controller) (err h : ℝ) : Controller × Bool × ℝ :=
  let beta : ℝ := 0.0
  let alpha : ℝ := 0.2 - beta * 0.75
  let safe : ℝ := 0.9
  let min_scale : ℝ := 0.2
  let max_scale : ℝ := 10.0
  if err ≤ 1.0 then
    let scale : ℝ :=
      if err = 0.0 then max_scale
      else
        let temp := safe * err ^ (-alpha) * c.err_old ^ beta
        max min_scale (min max_scale temp)
    let h_next := if c.rejected then h * min scale 1.0 else h * scale
    ({ h_next := h_next, err_old := max err 1e-4, rejected := false }, true, h)
  else
    let scale := max (safe * err ^ (-alpha)) min_scale
    ({ c with rejected := true }, false, h * scale)

end Controller

/-- `StepperData<const N: usize>` from `src/ode/stepper.rs` lines 13-21. -/
structure StepperData (n : ℕ) where
  h_cur : ℝ
  h_new : ℝ
  x_cur : ℝ
  x_old : ℝ
  y_cur : Vector n
  y_out : Vector n
  derive : ℝ → Vector n → Vector n

namespace StepperData

/-- `StepperData::new(h, p0, df)` from `src/ode/stepper.rs` lines 24-34. -/
def new {n : ℕ} (h : ℝ) (p0 : Vector n) (df : ℝ → Vector n → Vector n) :
    StepperData n :=
  { h_cur := h, h_new := h, x_cur := 0.0, x_old := 0.0, y_cur := p0, y_out := p0,
    derive := df }

end StepperData

/-- `Euler<const N: usize>` from `src/ode/stepper/euler.rs`. -/
structure Euler (n : ℕ) where
  data : StepperData n

namespace Euler

/-- `Euler::new` from `src/ode/stepper/euler.rs` lines 10-14. -/
def new {n : ℕ} (h : ℝ) (p0 : Vector n) (df : ℝ → Vector n → Vector n) : Euler n :=
  { data := StepperData.new h p0 df }

/-- `Euler::dy(&self, h)` from `src/ode/stepper/euler.rs` lines 16-18. -/
def dy {n : ℕ} (s : Euler n) (h : ℝ) : Vector n :=
  s.data.y_cur + s.data.derive s.data.x_cur s.data.y_cur * h

/-- `impl Stepper<N> for Euler<N>`: `step(&mut self) -> Vector<N>` from
`src/ode/stepper/euler.rs` lines 21-26: stores `dy(h_cur)` into `y_cur`
and returns it. -/
def step {n : ℕ} (s : Euler n) : Euler n × Vector n :=
  let y := s.dy s.data.h_cur
  ({ s with data := { s.data with y_cur := y } }, y)

end Euler

/-- `RungeKutta<const N: usize>` from `src/ode/stepper/runge_kutta.rs`. -/
structure RungeKutta (n : ℕ) where
  data : StepperData n

namespace RungeKutta

/-- `RungeKutta::new` from `src/ode/stepper/runge_kutta.rs` lines 10-14. -/
def new {n : ℕ} (h : ℝ) (p0 : Vector n) (df : ℝ → Vector n → Vector n) :
    RungeKutta n :=
  { data := StepperData.new h p0 df }

/-- `RungeKutta::dy(&self, h)` from `src/ode/stepper/runge_kutta.rs` lines
16-23: the four classical stage values (all derivative evaluations use the
stored time `x_cur` unchanged, exactly as in the source). -/
def dy {n : ℕ} (s : RungeKutta n) (h : ℝ) : Vector n :=
  let k1 := s.data.derive s.data.x_cur s.data.y_cur * h
  let k2 := s.data.derive s.data.x_cur (s.data.y_cur + k1 / (2.0 : ℝ)) * h
  let k3 := s.data.derive s.data.x_cur (s.data.y_cur + k2 / (2.0 : ℝ)) * h
  let k4 := s.data.derive s.data.x_cur (s.data.y_cur + k3) * h
  s.data.y_cur + k1 / (6.0 : ℝ) + k2 / (3.0 : ℝ) + k3 / (3.0 : ℝ) + k4 / (6.0 : ℝ)

/-- `impl Stepper<N> for RungeKutta<N>`: `step(&mut self) -> Vector<N>` from
`src/ode/stepper/runge_kutta.rs` lines 26-31: stores `dy(h_cur)` into
`y_cur` and returns it. -/
def step {n : ℕ} (s : RungeKutta n) : RungeKutta n × Vector n :=
  let y := s.dy s.data.h_cur
  ({ s with data := { s.data with y_cur := y } }, y)

end RungeKutta

/-- `DormandPrince<const N: usize>` from `src/ode/stepper.rs` lines 123-147. -/
structure DormandPrince (n : ℕ) where
  x : ℝ
  x_old : ℝ
  y : Vector n
  dydx : Vector n
  h_did : ℝ
  h_next : ℝ
  y_out : Vector n
  y_err : Vector n
  k2 : Vector n
  k3 : Vector n
  k4 : Vector n
  k5 : Vector n
  k6 : Vector n
  rcont1 : Vector n
  rcont2 : Vector n
  rcont3 : Vector n
  rcont4 : Vector n
  rcont5 : Vector n
  dydxnew : Vector n
  atol : ℝ
  rtol : ℝ
  controller : Controller
  data : StepperData n

namespace DormandPrince

/-- `DormandPrince::new(h, p0, df)` from `src/ode/stepper.rs` lines 150-201.
Note that `dydx` is initialised to `Vector::zero()`, not to `df(0, p0)`. -/
def new {n : ℕ} (h : ℝ) (p0 : Vector n) (df : ℝ → Vector n → Vector n) :
    DormandPrince n :=
  { x := 0.0, x_old := 0.0, y := p0, dydx := Vector.zero n,
    y_out := Vector.zero n, y_err := Vector.zero n, h_did := 0.0, h_next := 0.0,
    k2 := Vector.zero n, k3 := Vector.zero n, k4 := Vector.zero n,
    k5 := Vector.zero n, k6 := Vector.zero n,
    rcont1 := Vector.zero n, rcont2 := Vector.zero n, rcont3 := Vector.zero n,
    rcont4 := Vector.zero n, rcont5 := Vector.zero n,
    dydxnew := Vector.zero n, atol := 0.01, rtol := 0.01,
    controller := Controller.new, data := StepperData.new h p0 df }

/-- `DormandPrince::error(&mut self)` from `src/ode/stepper.rs` lines 203-211:
the RMS-normalised local error scalar. -/
def error {n : ℕ} (s : DormandPrince n) : ℝ :=
  Real.sqrt ((∑ i : Fin n,
    (s.y_err.coeff i /
      (s.atol + s.rtol * max |s.y.coeff i| |s.y_out.coeff i|)) ^ 2) / n)

/-- `DormandPrince::dy(&mut self)` from `src/ode/stepper.rs` lines 213-285:
computes the six stage derivatives `k2..k6`, the 5th-order solution `y_out`,
the new derivative `dydxnew` and the embedded error vector `y_err`, with the
published Dormand–Prince 5(4) tableau coefficients. -/
def dy {n : ℕ} (s : DormandPrince n) : DormandPrince n :=
  let C2 : ℝ := 0.2
  let C3 : ℝ := 0.3
  let C4 : ℝ := 0.8
  let C5 : ℝ := 8.0 / 9.0
  let A21 : ℝ := 0.2
  let A31 : ℝ := 3.0 / 40.0
  let A32 : ℝ := 9.0 / 40.0
  let A41 : ℝ := 44.0 / 45.0
  let A42 : ℝ := -56.0 / 15.0
  let A43 : ℝ := 32.0 / 9.0
  let A51 : ℝ := 19372.0 / 6561.0
  let A52 : ℝ := -25360.0 / 2187.0
  let A53 : ℝ := 64448.0 / 6561.0
  let A54 : ℝ := -212.0 / 729.0
  let A61 : ℝ := 9017.0 / 3168.0
  let A62 : ℝ := -355.0 / 33.0
  let A63 : ℝ := 46732.0 / 5247.0
  let A64 : ℝ := 49.0 / 176.0
  let A65 : ℝ := -5103.0 / 18656.0
  let A71 : ℝ := 35.0 / 384.0
  let A72 : ℝ := 0.0
  let A73 : ℝ := 500.0 / 1113.0
  let A74 : ℝ := 125.0 / 192.0
  let A75 : ℝ := -2187.0 / 6784.0
  let A76 : ℝ := 11.0 / 84.0
  let E1 : ℝ := 71.0 / 57600.0
  let E3 : ℝ := -71.0 / 16695.0
  let E4 : ℝ := 71.0 / 1920.0
  let E5 : ℝ := -17253.0 / 339200.0
  let E6 : ℝ := 22.0 / 525.0
  let E7 : ℝ := -1.0 / 40.0
  let y_temp1 := s.y + s.dydx * A21 * s.data.h_cur
  let k2 := s.data.derive (s.x + C2 * s.data.h_cur) y_temp1
  let y_temp2 := s.y + (s.dydx * A31 + k2 * A32) * s.data.h_cur
  let k3 := s.data.derive (s.x + C3 * s.data.h_cur) y_temp2
  let y_temp3 := s.y + (s.dydx * A41 + k2 * A42 + k3 * A43) * s.data.h_cur
  let k4 := s.data.derive (s.x + C4 * s.data.h_cur) y_temp3
  let y_temp4 := s.y + (s.dydx * A51 + k2 * A52 + k3 * A53 + k4 * A54) * s.data.h_cur
  let k5 := s.data.derive (s.x + C5 * s.data.h_cur) y_temp4
  let y_temp5 := s.y
    + (s.dydx * A61 + k2 * A62 + k3 * A63 + k4 * A64 + k5 * A65) * s.data.h_cur
  let xph := s.x + s.data.h_cur
  let k6 := s.data.derive xph y_temp5
  let y_out := s.y
    + (s.dydx * A71 + k2 * A72 + k3 * A73 + k4 * A74 + k5 * A75 + k6 * A76)
      * s.data.h_cur
  let dydxnew := s.data.derive xph y_out
  let y_err :=
    (s.dydx * E1 + k3 * E3 + k4 * E4 + k5 * E5 + k6 * E6 + dydxnew * E7)
      * s.data.h_cur
  { s with k2 := k2, k3 := k3, k4 := k4, k5 := k5, k6 := k6,
           y_out := y_out, dydxnew := dydxnew, y_err := y_err }

/-- One iteration of the retry loop body of `DormandPrince::step`
(`src/ode/stepper.rs` lines 290-298): run `dy`, compute the error, consult the
controller; returns the stepper with the stage fields and controller updated,
the accept flag, and the controller's returned step size. -/
def attempt {n : ℕ} (s : DormandPrince n) : DormandPrince n × Bool × ℝ :=
  let s1 := s.dy
  let err := s1.error
  let r := s1.controller.success err s1.data.h_cur
  ({ s1 with controller := r.1 }, r.2.1, r.2.2)

/-- The state after a rejected attempt: `self.data.h_cur = h_new`
(`src/ode/stepper.rs` line 297). -/
def rejectStep {n : ℕ} (s : DormandPrince n) : DormandPrince n :=
  let a := s.attempt
  { a.1 with data := { a.1.data with h_cur := a.2.2 } }

/-- The retry loop of `DormandPrince::step` (`src/ode/stepper.rs` lines
290-298).  The Rust loop is unbounded; it is modelled with explicit fuel,
`none` standing for not having reached acceptance within `fuel` attempts. -/
def stepLoop {n : ℕ} : ℕ → DormandPrince n → Option (DormandPrince n)
  | 0, _ => none
  | fuel + 1, s =>
    if (s.attempt).2.1 then some (s.attempt).1
    else stepLoop fuel s.rejectStep

/-- The commit phase of `DormandPrince::step` after the loop breaks
(`src/ode/stepper.rs` lines 300-305). -/
def commit {n : ℕ} (s : DormandPrince n) : DormandPrince n :=
  { s with dydx := s.dydxnew, y := s.y_out, x_old := s.x,
           h_did := s.data.h_cur, x := s.x + s.data.h_cur,
           h_next := s.controller.h_next }

/-- `impl Stepper for DormandPrince<N>`: `step(&mut self)` from
`src/ode/stepper.rs` lines 288-307, with explicit fuel for the retry loop. -/
def step {n : ℕ} (fuel : ℕ) (s : DormandPrince n) : Option (DormandPrince n) :=
  (stepLoop fuel s).map commit

/-- A whole integration: a sequence of calls to `step`, each with its own
fuel, threaded through `Option`. -/
def stepSeq {n : ℕ} : List ℕ → DormandPrince n → Option (DormandPrince n)
  | [], s => some s
  | f :: fs, s =>
    match step f s with
    | none => none
    | some s1 => stepSeq fs s1

end DormandPrince

/-- `ODESolver<const N: usize>` from `src/ode.rs` lines 14-21.  The boxed
trait object `Box<dyn Stepper<N>>` is modelled by a type parameter `σ` for
the stepper state together with its `step` function `σ → σ × Vector n`
(that is exactly the `Stepper<N>` trait capability). -/
structure ODESolver (σ : Type) (n : ℕ) where
  steps : ℕ
  step_size : ℝ
  cur_step : Vector n
  ode : ℝ → Vector n → Vector n
  stepper : σ
  data : List (Vector n)

namespace ODESolver

/-- `ODESolver::new` from `src/ode.rs` lines 24-46: the `match` constructing
the boxed stepper is abstracted into the already-constructed stepper state
`st`; the remaining fields are filled exactly as in the source
(`data` starts empty, `cur_step` is the initial state `p0`). -/
def new {σ : Type} {n : ℕ} (steps : ℕ) (step_size : ℝ) (p0 : Vector n)
    (ode : ℝ → Vector n → Vector n) (st : σ) : ODESolver σ n :=
  { steps := steps, step_size := step_size, cur_step := p0, ode := ode,
    stepper := st, data := [] }

/-- `ODESolver::run(&mut self)` from `src/ode.rs` lines 48-53:
`while self.steps > 0 { self.data.push(self.stepper.step()); self.steps -= 1 }`. -/
def run {σ : Type} {n : ℕ} (stepF : σ → σ × Vector n) (s : ODESolver σ n) :
    ODESolver σ n :=
  if h : 0 < s.steps then
    run stepF { s with steps := s.steps - 1, stepper := (stepF s.stepper).1,
                       data := s.data ++ [(stepF s.stepper).2] }
  else s
termination_by s.steps
decreasing_by exact Nat.sub_lt h one_pos

end ODESolver

/-- The list of states returned by `k` successive calls to the stepper's
`step`, starting from stepper state `st`, in call order. -/
def stepTrace {σ : Type} {n : ℕ} (stepF : σ → σ × Vector n) :
    ℕ → σ → List (Vector n)
  | 0, _ => []
  | k + 1, st => (stepF st).2 :: stepTrace stepF k (stepF st).1

/-- The stepper state after `k` successive calls to `step`, starting from
stepper state `st`. -/
def stepIter {σ : Type} {n : ℕ} (stepF : σ → σ × Vector n) : ℕ → σ → σ
  | 0, st => st
  | k + 1, st => stepIter stepF k (stepF st).1

/-- Constant derivative function used in concrete evaluations below: it
returns the all-ones vector whatever its arguments. -/
def constOne (n : ℕ) : ℝ → Vector n → Vector n := fun _ _ => ⟨fun _ => 1.0⟩

/- ===================  Theorems  =================== -/

theorem Vector.ext_iff {n : ℕ} {v w : Vector n} :
    v = w ↔ ∀ i, v.coeff i = w.coeff i := by
  constructor
  · intro h i; rw [h]
  · intro h; cases v; cases w; simp only [mk.injEq]; funext i; exact h i

@[simp] theorem add_coeff {n : ℕ} (a b : Vector n) (i : Fin n) :
    (a + b).coeff i = a.coeff i + b.coeff i := rfl

@[simp] theorem mul_coeff {n : ℕ} (a : Vector n) (r : ℝ) (i : Fin n) :
    (a * r).coeff i = a.coeff i * r := rfl

@[simp] theorem div_coeff {n : ℕ} (a : Vector n) (r : ℝ) (i : Fin n) :
    (a / r).coeff i = a.coeff i / r := rfl

@[simp] theorem zero_coeff {n : ℕ} (i : Fin n) : (Vector.zero n).coeff i = 0 := rfl

/-- C5: the spec claims `cross_product([1,0,0], [0,1,0]) = [0,0,1]`, but
`Vector::cross_product` in `src/vector.rs` is an unimplemented stub: on the
3-dimensional unit x-axis and y-axis vectors it hits `todo!()` and panics
(modelled as `Except.error VError.unimplemented`); in particular it never
returns the unit z-axis vector. -/
theorem cross_product_axes_unimplemented :
    Vector.cross_product (⟨![1.0, 0.0, 0.0]⟩ : Vector 3) ⟨![0.0, 1.0, 0.0]⟩
      = Except.error VError.unimplemented
    ∧ ∀ v : Vector 3,
        Vector.cross_product (⟨![1.0, 0.0, 0.0]⟩ : Vector 3) ⟨![0.0, 1.0, 0.0]⟩
          ≠ Except.ok v := by
  constructor
  · simp [Vector.cross_product]
  · intro v hv
    simp [Vector.cross_product] at hv

/-- C1: in `DormandPrince::new` the `dydx` field is initialised to
`Vector::zero()` and `step` never evaluates the derivative at the initial
condition before the first stage combination, so on the first call to `step`
the stage-1 derivative is the zero vector — not `f(x0, y0)` as the claim
states.  Witnessed by the constant derivative `f(_, _) = [1.0]`, whose value
at the initial condition is nonzero. -/
theorem dormandPrince_new_dydx_zero :
    (∀ (n : ℕ) (h : ℝ) (p0 : Vector n) (df : ℝ → Vector n → Vector n),
        (DormandPrince.new h p0 df).dydx = Vector.zero n)
    ∧ (DormandPrince.new (1.0 : ℝ) (Vector.zero 1) (constOne 1)).dydx = Vector.zero 1
    ∧ constOne 1 0.0 (Vector.zero 1) ≠ Vector.zero 1 := by
  refine ⟨fun n h p0 df => rfl, rfl, fun hEq => ?_⟩
  rw [Vector.ext_iff] at hEq
  have h0 := hEq 0
  norm_num [constOne] at h0

/-- C7: one call to `RungeKutta::step` computes the four classical stage
values `k1 = f(x,y)·h`, `k2 = f(x, y+k1/2)·h`, `k3 = f(x, y+k2/2)·h`,
`k4 = f(x, y+k3)·h` from the stored `(x, y, h)` (every stage reuses the
stored time `x`, as in the source), replaces the stored state with
`y + k1/6 + k2/3 + k3/3 + k4/6`, returns that new state, and leaves `x`,
`h` and the derivative function unchanged. -/
theorem rungeKutta_step_formula {n : ℕ} (s : RungeKutta n) :
    let f := s.data.derive
    let x := s.data.x_cur
    let y := s.data.y_cur
    let h := s.data.h_cur
    let k1 := f x y * h
    let k2 := f x (y + k1 / (2.0 : ℝ)) * h
    let k3 := f x (y + k2 / (2.0 : ℝ)) * h
    let k4 := f x (y + k3) * h
    (RungeKutta.step s).1.data.y_cur
        = y + k1 / (6.0 : ℝ) + k2 / (3.0 : ℝ) + k3 / (3.0 : ℝ) + k4 / (6.0 : ℝ)
    ∧ (RungeKutta.step s).2
        = y + k1 / (6.0 : ℝ) + k2 / (3.0 : ℝ) + k3 / (3.0 : ℝ) + k4 / (6.0 : ℝ)
    ∧ (RungeKutta.step s).1.data.x_cur = x
    ∧ (RungeKutta.step s).1.data.h_cur = h
    ∧ (RungeKutta.step s).1.data.derive = f :=
  ⟨rfl, rfl, rfl, rfl, rfl⟩

/-- C8: `Vector::new` fails with the dimension-mismatch panic exactly when
the input slice length differs from `N`, succeeds with the given components
when the length is exactly `N`, and `rotate`/`cross_product` on a vector of
dimension `N ≠ 3` fail with the same dimension violation
(the `assert_eq!(N, 3)` guard). -/
theorem vector_dimension_guard (n m : ℕ) (bad good : List ℝ)
    (hbad : bad.length ≠ n) (hgood : good.length = n) (hm : m ≠ 3)
    (v a w : Vector m) (theta : ℝ) :
    Vector.new n bad = Except.error VError.dimensionMismatch
    ∧ (∃ u : Vector n, Vector.new n good = Except.ok u
        ∧ ∀ i : Fin n, u.coeff i = good.getD i.val 0)
    ∧ Vector.rotate v a theta = Except.error VError.dimensionMismatch
    ∧ Vector.cross_product v w = Except.error VError.dimensionMismatch := by
  refine ⟨dif_neg hbad, ⟨⟨fun i => good.get (Fin.cast hgood.symm i)⟩, dif_pos hgood, ?_⟩, ?_, ?_⟩
  · intro i
    have hi : (i : ℕ) < good.length := by rw [hgood]; exact i.isLt
    simp [List.getD_eq_getElem, hi]
  · simp [Vector.rotate, hm]
  · simp [Vector.cross_product, hm]

/-- Witness for C8 at concrete inputs: `Vector::<3>::new` on a 2-element
slice fails, on a 3-element slice succeeds with those components, and
`rotate`/`cross_product` on 4-dimensional vectors fail. -/
theorem vector_dimension_guard_witness :
    (([(1 : ℝ), 2] : List ℝ).length ≠ 3) ∧ (([(4 : ℝ), 5, 6] : List ℝ).length = 3)
    ∧ ((4 : ℕ) ≠ 3)
    ∧ (Vector.new 3 [(1 : ℝ), 2] = Except.error VError.dimensionMismatch
      ∧ (∃ u : Vector 3, Vector.new 3 [(4 : ℝ), 5, 6] = Except.ok u
          ∧ ∀ i : Fin 3, u.coeff i = ([(4 : ℝ), 5, 6] : List ℝ).getD i.val 0)
      ∧ Vector.rotate (Vector.zero 4) (Vector.zero 4) 0.0
          = Except.error VError.dimensionMismatch
      ∧ Vector.cross_product (Vector.zero 4) (Vector.zero 4)
          = Except.error VError.dimensionMismatch) :=
  ⟨by simp, by simp, by simp,
    vector_dimension_guard 3 4 [(1 : ℝ), 2] [(4 : ℝ), 5, 6] (by simp) (by simp)
      (by simp) (Vector.zero 4) (Vector.zero 4) (Vector.zero 4) 0.0⟩

theorem Controller.success_accept (c : Controller) (err h : ℝ) (hle : err ≤ 1.0) :
    (c.success err h).2 = (true, h) := by
  simp [Controller.success, hle]

theorem Controller.success_reject (c : Controller) (err h : ℝ) (hgt : 1.0 < err) :
    c.success err h
      = ({ c with rejected := true }, false,
          h * max ((0.9 : ℝ) * err ^ (-(1/5) : ℝ)) 0.2) := by
  have hexp : (-(0.2 - 0.0 * 0.75) : ℝ) = -(1/5) := by norm_num
  simp only [Controller.success, hexp]
  rw [if_neg (not_le.mpr hgt)]

theorem reject_scale_lt_one {err : ℝ} (hgt : 1.0 < err) :
    max ((0.9 : ℝ) * err ^ (-(1/5) : ℝ)) 0.2 < 1 := by
  have hgt1 : (1 : ℝ) < err := by norm_num at hgt; exact hgt
  refine max_lt ?_ (by norm_num)
  have hlt : err ^ (-(1/5) : ℝ) < 1 :=
    Real.rpow_lt_one_of_one_lt_of_neg hgt1 (by norm_num)
  have hp : (0 : ℝ) < err ^ (-(1/5) : ℝ) :=
    Real.rpow_pos_of_pos (lt_trans one_pos hgt1) _
  nlinarith

theorem reject_scale_pos (err : ℝ) :
    (0 : ℝ) < max ((0.9 : ℝ) * err ^ (-(1/5) : ℝ)) 0.2 :=
  lt_of_lt_of_le (by norm_num) (le_max_right _ _)

/-- C2: for every controller state and every `h > 0`: on `err ≤ 1.0` the
call `Controller::success(err, h)` returns `(true, h)` with the current step
size unchanged; on `err > 1.0` it returns
`(false, h · max(0.9·err^(-0.2), 0.2))`, which is strictly below `h`. -/
theorem controller_accept_reject (c : Controller) (err h : ℝ) (hh : 0 < h) :
    (err ≤ 1.0 → (c.success err h).2 = (true, h))
    ∧ (1.0 < err →
        (c.success err h).2
            = (false, h * max ((0.9 : ℝ) * err ^ (-(1/5) : ℝ)) 0.2)
        ∧ (c.success err h).2.2 < h) := by
  refine ⟨fun hle => Controller.success_accept c err h hle, fun hgt => ?_⟩
  rw [Controller.success_reject c err h hgt]
  exact ⟨rfl, mul_lt_of_lt_one_right hh (reject_scale_lt_one hgt)⟩

/-- Witness for C2 at `err = 2`, `h = 1` (reject) and, via the accept
conjunct, `err = 1/2`. -/
theorem controller_accept_reject_witness :
    (0 : ℝ) < 1
    ∧ (((1 : ℝ)/2 ≤ 1.0 → (Controller.new.success (1/2) 1).2 = (true, 1))
      ∧ ((1.0 : ℝ) < 1/2 →
          (Controller.new.success (1/2) 1).2
              = (false, 1 * max ((0.9 : ℝ) * ((1 : ℝ)/2) ^ (-(1/5) : ℝ)) 0.2)
          ∧ (Controller.new.success (1/2) 1).2.2 < 1))
    ∧ (((2 : ℝ) ≤ 1.0 → (Controller.new.success 2 1).2 = (true, 1))
      ∧ ((1.0 : ℝ) < 2 →
          (Controller.new.success 2 1).2
              = (false, 1 * max ((0.9 : ℝ) * (2 : ℝ) ^ (-(1/5) : ℝ)) 0.2)
          ∧ (Controller.new.success 2 1).2.2 < 1)) :=
  ⟨by norm_num,
    controller_accept_reject Controller.new (1/2) 1 (by norm_num),
    controller_accept_reject Controller.new 2 1 (by norm_num)⟩

theorem hundredThousand_rpow : ((100000 : ℝ)) ^ (-(1/5) : ℝ) = 1/10 := by
  have h100 : (100000 : ℝ) = (10 : ℝ) ^ ((5 : ℕ) : ℝ) := by
    rw [Real.rpow_natCast]; norm_num
  rw [h100, ← Real.rpow_mul (by norm_num : (0 : ℝ) ≤ 10)]
  have hmul : (((5 : ℕ) : ℝ) * (-(1/5)) : ℝ) = -1 := by push_cast; norm_num
  rw [hmul, Real.rpow_neg_one]
  norm_num

theorem tenBillion_rpow : ((10000000000 : ℝ)) ^ (-(1/5) : ℝ) = 1/100 := by
  have h10 : (10000000000 : ℝ) = (10 : ℝ) ^ ((10 : ℕ) : ℝ) := by
    rw [Real.rpow_natCast]; norm_num
  rw [h10, ← Real.rpow_mul (by norm_num : (0 : ℝ) ≤ 10)]
  have hmul : (((10 : ℕ) : ℝ) * (-(1/5)) : ℝ) = ((-2 : ℤ) : ℝ) := by push_cast; norm_num
  rw [hmul, Real.rpow_intCast]
  norm_num

/-- C6 counterexample: `new_h` is *not* strictly decreasing in `err` over all
of `err > 1.0`.  With `err_old` fixed (the fresh controller) and `h = 1 > 0`,
both `err = 10^5` and `err = 10^10` are rejected with the scale clamped to
`min_scale = 0.2`, so `success` returns the same `new_h = 0.2` for both,
although `1 < 10^5 < 10^10`. -/
theorem controller_monotone_cex :
    (1 : ℝ) < 100000 ∧ (100000 : ℝ) < 10000000000 ∧ (0 : ℝ) < 1
    ∧ (Controller.new.success 100000 1).2.2 = 0.2
    ∧ (Controller.new.success 10000000000 1).2.2 = 0.2 := by
  refine ⟨by norm_num, by norm_num, by norm_num, ?_, ?_⟩
  · rw [Controller.success_reject Controller.new 100000 1 (by norm_num)]
    show (1 : ℝ) * max ((0.9 : ℝ) * (100000 : ℝ) ^ (-(1/5) : ℝ)) 0.2 = 0.2
    rw [hundredThousand_rpow,
      max_eq_right (by norm_num : ((0.9 : ℝ) * (1/10) : ℝ) ≤ 0.2)]
    norm_num
  · rw [Controller.success_reject Controller.new 10000000000 1 (by norm_num)]
    show (1 : ℝ) * max ((0.9 : ℝ) * (10000000000 : ℝ) ^ (-(1/5) : ℝ)) 0.2 = 0.2
    rw [tenBillion_rpow,
      max_eq_right (by norm_num : ((0.9 : ℝ) * (1/100) : ℝ) ≤ 0.2)]
    norm_num

/-- C6 (amended): for a fixed `err_old` and fixed `h > 0`, the `new_h`
returned by `Controller::success(err, h)` is non-increasing in `err` for
`err > 1.0`, and strictly decreasing while the proposed factor
`0.9·err^(-0.2)` has not yet been clamped to `min_scale` (that is, while
`0.9·err^(-0.2) ≥ 0.2` at the larger error); and for every input the factor
relating the controller's output step size to `h` lies within
`[0.2, 10.0]`. -/
theorem controller_monotone (c : Controller) (h err e1 e2 : ℝ)
    (hh : 0 < h) (h1 : (1.0 : ℝ) < e1) (h12 : e1 < e2) :
    ((c.success e2 h).2.2 ≤ (c.success e1 h).2.2)
    ∧ ((0.2 : ℝ) ≤ (0.9 : ℝ) * e2 ^ (-(1/5) : ℝ) →
        (c.success e2 h).2.2 < (c.success e1 h).2.2)
    ∧ (∃ t : ℝ, (0.2 : ℝ) ≤ t ∧ t ≤ 10
        ∧ (if err ≤ 1.0 then (c.success err h).1.h_next
           else (c.success err h).2.2) = h * t) := by
  have h1n : (1 : ℝ) < e1 := by norm_num at h1; exact h1
  have h2 : (1.0 : ℝ) < e2 := lt_trans h1 h12
  have e1pos : (0 : ℝ) < e1 := lt_trans one_pos h1n
  have hanti : e2 ^ (-(1/5) : ℝ) < e1 ^ (-(1/5) : ℝ) :=
    Real.rpow_lt_rpow_of_neg e1pos h12 (by norm_num)
  refine ⟨?_, ?_, ?_⟩
  · rw [Controller.success_reject c e1 h h1, Controller.success_reject c e2 h h2]
    show h * max ((0.9 : ℝ) * e2 ^ (-(1/5) : ℝ)) 0.2
        ≤ h * max ((0.9 : ℝ) * e1 ^ (-(1/5) : ℝ)) 0.2
    refine mul_le_mul_of_nonneg_left (max_le_max (by nlinarith) le_rfl) (le_of_lt hh)
  · intro hclamp
    rw [Controller.success_reject c e1 h h1, Controller.success_reject c e2 h h2]
    show h * max ((0.9 : ℝ) * e2 ^ (-(1/5) : ℝ)) 0.2
        < h * max ((0.9 : ℝ) * e1 ^ (-(1/5) : ℝ)) 0.2
    have lt12 : (0.9 : ℝ) * e2 ^ (-(1/5) : ℝ) < (0.9 : ℝ) * e1 ^ (-(1/5) : ℝ) := by
      nlinarith
    rw [max_eq_left hclamp, max_eq_left (le_of_lt (lt_of_le_of_lt hclamp lt12))]
    exact mul_lt_mul_of_pos_left lt12 hh
  · by_cases hle : err ≤ 1.0
    · rw [if_pos hle]
      simp only [Controller.success, if_pos hle]
      by_cases herr0 : err = 0.0
      · rw [if_pos herr0]
        by_cases hrej : c.rejected
        · exact ⟨min 10.0 1.0, by norm_num, by norm_num, by rw [if_pos hrej]⟩
        · exact ⟨(10.0 : ℝ), by norm_num, by norm_num, by rw [if_neg hrej]⟩
      · rw [if_neg herr0]
        set S : ℝ :=
          max 0.2 (min 10.0 ((0.9 : ℝ) * err ^ (-(0.2 - 0.0 * 0.75) : ℝ)
            * c.err_old ^ (0.0 : ℝ))) with hS
        have hS02 : (0.2 : ℝ) ≤ S := le_max_left _ _
        have hS10 : S ≤ 10 := max_le (by norm_num) (le_trans (min_le_left _ _) (by norm_num))
        by_cases hrej : c.rejected
        · refine ⟨min S 1.0, le_min hS02 (by norm_num),
            le_trans (min_le_left _ _) hS10, by rw [if_pos hrej]⟩
        · exact ⟨S, hS02, hS10, by rw [if_neg hrej]⟩
    · rw [if_neg hle]
      have hgt : (1.0 : ℝ) < err := not_le.mp hle
      rw [Controller.success_reject c err h hgt]
      refine ⟨max ((0.9 : ℝ) * err ^ (-(1/5) : ℝ)) 0.2, le_max_right _ _,
        le_trans (le_of_lt (reject_scale_lt_one hgt)) (by norm_num), rfl⟩

/-- Witness for C6 (amended) at `err_old` from the fresh controller, `h = 1`,
`err = 1/2` (accept side of the clamp conjunct), `e1 = 2`, `e2 = 3`. -/
theorem controller_monotone_witness :
    (0 : ℝ) < 1 ∧ (1.0 : ℝ) < 2 ∧ (2 : ℝ) < 3
    ∧ (((Controller.new.success 3 1).2.2 ≤ (Controller.new.success 2 1).2.2)
      ∧ ((0.2 : ℝ) ≤ (0.9 : ℝ) * (3 : ℝ) ^ (-(1/5) : ℝ) →
          (Controller.new.success 3 1).2.2 < (Controller.new.success 2 1).2.2)
      ∧ (∃ t : ℝ, (0.2 : ℝ) ≤ t ∧ t ≤ 10
          ∧ (if (1 : ℝ)/2 ≤ 1.0 then (Controller.new.success (1/2) 1).1.h_next
             else (Controller.new.success (1/2) 1).2.2) = 1 * t)) :=
  ⟨by norm_num, by norm_num, by norm_num,
    controller_monotone Controller.new 1 (1/2) 2 3 (by norm_num) (by norm_num)
      (by norm_num)⟩

theorem stepTrace_length {σ : Type} {n : ℕ} (stepF : σ → σ × Vector n) :
    ∀ (k : ℕ) (st : σ), (stepTrace stepF k st).length = k := by
  intro k
  induction k with
  | zero => intro st; rfl
  | succ k ih => intro st; simp [stepTrace, ih]

theorem ODESolver.run_eq {σ : Type} {n : ℕ} (stepF : σ → σ × Vector n) :
    ∀ (k : ℕ) (s : ODESolver σ n), s.steps = k →
      s.run stepF =
        { steps := 0, step_size := s.step_size, cur_step := s.cur_step,
          ode := s.ode, stepper := stepIter stepF k s.stepper,
          data := s.data ++ stepTrace stepF k s.stepper } := by
  intro k
  induction k with
  | zero =>
    intro s hs
    rw [ODESolver.run, dif_neg (by omega)]
    cases s
    simp only at hs
    simp [hs, stepIter, stepTrace]
  | succ k ih =>
    intro s hs
    rw [ODESolver.run, dif_pos (by omega)]
    rw [ih _ (by simp [hs])]
    simp [stepIter, stepTrace, hs]

/-- C4: `ODESolver::run` iterates `stepper.step()` exactly `steps` times:
it ends with `steps == 0`, the trajectory `data` is extended by the list of
the `steps` successive stepper return values in call order, that list has
length `steps`, and starting from the empty trajectory the final trajectory
length equals the configured step count. -/
theorem odeSolver_run_count {σ : Type} {n : ℕ} (stepF : σ → σ × Vector n)
    (s : ODESolver σ n) (h0 : s.data = []) :
    (s.run stepF).steps = 0
    ∧ (s.run stepF).data = s.data ++ stepTrace stepF s.steps s.stepper
    ∧ (stepTrace stepF s.steps s.stepper).length = s.steps
    ∧ (s.run stepF).data.length = s.steps := by
  have he := ODESolver.run_eq stepF s.steps s rfl
  refine ⟨by rw [he], by rw [he], stepTrace_length stepF s.steps s.stepper, ?_⟩
  rw [he]
  simp [h0, stepTrace_length]

/-- Witness for C4: a 2-step Euler integration of the constant-one
derivative in one dimension, starting from the empty trajectory. -/
theorem odeSolver_run_count_witness :
    (ODESolver.new 2 (1.0 : ℝ) (Vector.zero 1) (constOne 1)
        (Euler.new 1.0 (Vector.zero 1) (constOne 1))).data = ([] : List (Vector 1))
    ∧ (((ODESolver.new 2 (1.0 : ℝ) (Vector.zero 1) (constOne 1)
          (Euler.new 1.0 (Vector.zero 1) (constOne 1))).run Euler.step).steps = 0
      ∧ ((ODESolver.new 2 (1.0 : ℝ) (Vector.zero 1) (constOne 1)
          (Euler.new 1.0 (Vector.zero 1) (constOne 1))).run Euler.step).data
          = (ODESolver.new 2 (1.0 : ℝ) (Vector.zero 1) (constOne 1)
              (Euler.new 1.0 (Vector.zero 1) (constOne 1))).data
            ++ stepTrace Euler.step
                (ODESolver.new 2 (1.0 : ℝ) (Vector.zero 1) (constOne 1)
                  (Euler.new 1.0 (Vector.zero 1) (constOne 1))).steps
                (ODESolver.new 2 (1.0 : ℝ) (Vector.zero 1) (constOne 1)
                  (Euler.new 1.0 (Vector.zero 1) (constOne 1))).stepper
      ∧ (stepTrace Euler.step
            (ODESolver.new 2 (1.0 : ℝ) (Vector.zero 1) (constOne 1)
              (Euler.new 1.0 (Vector.zero 1) (constOne 1))).steps
            (ODESolver.new 2 (1.0 : ℝ) (Vector.zero 1) (constOne 1)
              (Euler.new 1.0 (Vector.zero 1) (constOne 1))).stepper).length
          = (ODESolver.new 2 (1.0 : ℝ) (Vector.zero 1) (constOne 1)
              (Euler.new 1.0 (Vector.zero 1) (constOne 1))).steps
      ∧ (((ODESolver.new 2 (1.0 : ℝ) (Vector.zero 1) (constOne 1)
            (Euler.new 1.0 (Vector.zero 1) (constOne 1))).run Euler.step).data.length
          = (ODESolver.new 2 (1.0 : ℝ) (Vector.zero 1) (constOne 1)
              (Euler.new 1.0 (Vector.zero 1) (constOne 1))).steps)) :=
  ⟨rfl, odeSolver_run_count Euler.step
    (ODESolver.new 2 (1.0 : ℝ) (Vector.zero 1) (constOne 1)
      (Euler.new 1.0 (Vector.zero 1) (constOne 1))) rfl⟩

/-- C10 counterexample: it is not the case that only the `data` and `steps`
fields of the solver are mutated by `run`: the stepper's internal state is
mutated too.  Concretely, a 1-step Euler run with the constant-one
derivative changes the stepper's stored state `y_cur` from `[0.0]` to
`[1.0]`. -/
theorem odeSolver_run_mutates_stepper :
    ((ODESolver.new 1 (1.0 : ℝ) (Vector.zero 1) (constOne 1)
        (Euler.new 1.0 (Vector.zero 1) (constOne 1))).run
            Euler.step).stepper.data.y_cur.coeff 0 = 1
    ∧ (ODESolver.new 1 (1.0 : ℝ) (Vector.zero 1) (constOne 1)
        (Euler.new 1.0 (Vector.zero 1) (constOne 1))).stepper.data.y_cur.coeff 0 = 0
    ∧ (1 : ℝ) ≠ 0 := by
  refine ⟨?_, rfl, by norm_num⟩
  rw [ODESolver.run, dif_pos (by norm_num [ODESolver.new])]
  rw [ODESolver.run, dif_neg (by norm_num [ODESolver.new])]
  show (Euler.step (Euler.new 1.0 (Vector.zero 1) (constOne 1))).1.data.y_cur.coeff 0 = 1
  norm_num [Euler.step, Euler.dy, Euler.new, StepperData.new, constOne]

/-- C10 (amended): `ODESolver::run` leaves the `cur_step`, `step_size` and
`ode` fields unchanged — only `data`, `steps` and the stepper's internal
state are mutated — and for a solver built by `ODESolver::new` the public
field `cur_step` still equals the initial state `p0` after `run`. -/
theorem odeSolver_run_frame {σ : Type} {n : ℕ} (stepF : σ → σ × Vector n)
    (s : ODESolver σ n) (k : ℕ) (h : ℝ) (p0 : Vector n)
    (f : ℝ → Vector n → Vector n) (st : σ) :
    (s.run stepF).cur_step = s.cur_step
    ∧ (s.run stepF).step_size = s.step_size
    ∧ (s.run stepF).ode = s.ode
    ∧ ((ODESolver.new k h p0 f st).run stepF).cur_step = p0 := by
  have he := ODESolver.run_eq stepF s.steps s rfl
  have he2 := ODESolver.run_eq stepF k (ODESolver.new k h p0 f st) rfl
  exact ⟨by rw [he], by rw [he], by rw [he], by rw [he2]; rfl⟩

theorem DormandPrince.attempt_false {n : ℕ} (s : DormandPrince n)
    (hf : (s.attempt).2.1 = false) :
    1.0 < (s.dy).error
    ∧ (s.attempt).2.2
        = s.data.h_cur * max ((0.9 : ℝ) * (s.dy).error ^ (-(1/5) : ℝ)) 0.2 := by
  by_cases hle : (s.dy).error ≤ 1.0
  · exfalso
    have ht : (s.attempt).2.1 = true := by
      show ((s.dy).controller.success (s.dy).error (s.dy).data.h_cur).2.1 = true
      rw [show ((s.dy).controller.success (s.dy).error (s.dy).data.h_cur).2.1
            = (((s.dy).controller.success (s.dy).error (s.dy).data.h_cur).2).1 from rfl,
        Controller.success_accept _ _ _ hle]
    rw [hf] at ht
    exact Bool.false_ne_true ht
  · have hgt := not_le.mp hle
    refine ⟨hgt, ?_⟩
    show ((s.dy).controller.success (s.dy).error (s.dy).data.h_cur).2.2
        = s.data.h_cur * max ((0.9 : ℝ) * (s.dy).error ^ (-(1/5) : ℝ)) 0.2
    rw [Controller.success_reject _ _ _ hgt]
    rfl

theorem DormandPrince.stepLoop_invariant {n : ℕ} :
    ∀ (fuel : ℕ) (s s1 : DormandPrince n), 0 < s.data.h_cur →
      DormandPrince.stepLoop fuel s = some s1 →
      s1.x = s.x ∧ 0 < s1.data.h_cur ∧ s1.data.h_cur ≤ s.data.h_cur := by
  intro fuel
  induction fuel with
  | zero =>
    intro s s1 _ hsome
    exact absurd hsome (by simp [DormandPrince.stepLoop])
  | succ fuel ih =>
    intro s s1 hpos hsome
    rw [DormandPrince.stepLoop] at hsome
    by_cases hok : (s.attempt).2.1
    · rw [if_pos hok] at hsome
      have h1 := Option.some.inj hsome
      rw [← h1]
      exact ⟨rfl, hpos, le_rfl⟩
    · rw [if_neg hok] at hsome
      have hf : (s.attempt).2.1 = false := by simpa using hok
      obtain ⟨hgt, heq⟩ := DormandPrince.attempt_false s hf
      have hposR : 0 < s.rejectStep.data.h_cur := by
        rw [show s.rejectStep.data.h_cur = (s.attempt).2.2 from rfl, heq]
        exact mul_pos hpos (reject_scale_pos _)
      have hltR : s.rejectStep.data.h_cur < s.data.h_cur := by
        rw [show s.rejectStep.data.h_cur = (s.attempt).2.2 from rfl, heq]
        exact mul_lt_of_lt_one_right hpos (reject_scale_lt_one hgt)
      obtain ⟨ih1, ih2, ih3⟩ := ih s.rejectStep s1 hposR hsome
      refine ⟨?_, ih2, le_trans ih3 (le_of_lt hltR)⟩
      rw [ih1]
      rfl

theorem DormandPrince.step_spec {n : ℕ} (fuel : ℕ) (s s' : DormandPrince n)
    (hpos : 0 < s.data.h_cur) (hsome : DormandPrince.step fuel s = some s') :
    s.x < s'.x ∧ 0 < s'.data.h_cur ∧ s'.data.h_cur ≤ s.data.h_cur
    ∧ s'.h_next = s'.controller.h_next := by
  unfold DormandPrince.step at hsome
  obtain ⟨s2, h2, hc⟩ := Option.map_eq_some'.mp hsome
  obtain ⟨hx, hpos2, hle2⟩ := DormandPrince.stepLoop_invariant fuel s s2 hpos h2
  rw [← hc]
  refine ⟨?_, hpos2, hle2, rfl⟩
  show s.x < s2.x + s2.data.h_cur
  rw [hx]
  linarith

theorem DormandPrince.stepSeq_mono {n : ℕ} :
    ∀ (fuels : List ℕ) (s s2 : DormandPrince n), 0 < s.data.h_cur →
      DormandPrince.stepSeq fuels s = some s2 →
      s2.data.h_cur ≤ s.data.h_cur ∧ 0 < s2.data.h_cur := by
  intro fuels
  induction fuels with
  | nil =>
    intro s s2 hpos hsome
    rw [← Option.some.inj hsome]
    exact ⟨le_rfl, hpos⟩
  | cons f fs ih =>
    intro s s2 hpos hsome
    rw [DormandPrince.stepSeq] at hsome
    cases hstep : DormandPrince.step f s with
    | none => rw [hstep] at hsome; exact absurd hsome (by simp)
    | some s1 =>
      rw [hstep] at hsome
      obtain ⟨_, hpos1, hle1, _⟩ := DormandPrince.step_spec f s s1 hpos hstep
      obtain ⟨ih1, ih2⟩ := ih s1 s2 hpos1 hsome
      exact ⟨le_trans ih1 hle1, ih2⟩

/-- C3: for the adaptive Dormand–Prince stepper with a strictly positive
current step size: a rejected attempt leaves the time `x` unchanged and
keeps the step size strictly positive, and a completed (accepted) call to
`step` strictly increases `x` and keeps the step size strictly positive. -/
theorem dormandPrince_step_time (n : ℕ) (s s' : DormandPrince n) (fuel : ℕ)
    (hpos : 0 < s.data.h_cur) :
    ((s.attempt).2.1 = false →
        s.rejectStep.x = s.x ∧ 0 < s.rejectStep.data.h_cur)
    ∧ (DormandPrince.step fuel s = some s' → s.x < s'.x ∧ 0 < s'.data.h_cur) := by
  constructor
  · intro hf
    obtain ⟨hgt, heq⟩ := DormandPrince.attempt_false s hf
    refine ⟨rfl, ?_⟩
    rw [show s.rejectStep.data.h_cur = (s.attempt).2.2 from rfl, heq]
    exact mul_pos hpos (reject_scale_pos _)
  · intro hsome
    obtain ⟨h1, h2, _, _⟩ := DormandPrince.step_spec fuel s s' hpos hsome
    exact ⟨h1, h2⟩

/-- Witness for C3 at the freshly constructed one-dimensional stepper with
initial step size `1.0`. -/
theorem dormandPrince_step_time_witness :
    0 < (DormandPrince.new (1.0 : ℝ) (Vector.zero 1) (constOne 1)).data.h_cur
    ∧ ((((DormandPrince.new (1.0 : ℝ) (Vector.zero 1) (constOne 1)).attempt).2.1 = false →
          (DormandPrince.new (1.0 : ℝ) (Vector.zero 1) (constOne 1)).rejectStep.x
              = (DormandPrince.new (1.0 : ℝ) (Vector.zero 1) (constOne 1)).x
          ∧ 0 < (DormandPrince.new (1.0 : ℝ) (Vector.zero 1)
                  (constOne 1)).rejectStep.data.h_cur)
      ∧ (DormandPrince.step 0 (DormandPrince.new (1.0 : ℝ) (Vector.zero 1) (constOne 1))
            = some (DormandPrince.new (1.0 : ℝ) (Vector.zero 1) (constOne 1)) →
          (DormandPrince.new (1.0 : ℝ) (Vector.zero 1) (constOne 1)).x
              < (DormandPrince.new (1.0 : ℝ) (Vector.zero 1) (constOne 1)).x
          ∧ 0 < (DormandPrince.new (1.0 : ℝ) (Vector.zero 1) (constOne 1)).data.h_cur)) :=
  ⟨by norm_num [DormandPrince.new, StepperData.new],
    dormandPrince_step_time 1
      (DormandPrince.new (1.0 : ℝ) (Vector.zero 1) (constOne 1))
      (DormandPrince.new (1.0 : ℝ) (Vector.zero 1) (constOne 1)) 0
      (by norm_num [DormandPrince.new, StepperData.new])⟩

/-- C9: the Dormand–Prince working step size `data.h_cur` never increases
(current size strictly positive): it strictly shrinks on every rejected
attempt, is unchanged by acceptance (a successful `step` never enlarges it),
the committed stepper copies the controller's proposal into its `h_next`
field, and across every sequence of successful calls to `step` the working
step size is bounded by its initial value. -/
theorem dormandPrince_h_never_grows (n : ℕ) (s s' s2 : DormandPrince n)
    (fuel : ℕ) (fuels : List ℕ) (hpos : 0 < s.data.h_cur) :
    ((s.attempt).2.1 = false → s.rejectStep.data.h_cur < s.data.h_cur)
    ∧ (DormandPrince.step fuel s = some s' →
        s'.data.h_cur ≤ s.data.h_cur ∧ s'.h_next = s'.controller.h_next)
    ∧ (DormandPrince.stepSeq fuels s = some s2 →
        s2.data.h_cur ≤ s.data.h_cur) := by
  refine ⟨?_, ?_, ?_⟩
  · intro hf
    obtain ⟨hgt, heq⟩ := DormandPrince.attempt_false s hf
    rw [show s.rejectStep.data.h_cur = (s.attempt).2.2 from rfl, heq]
    exact mul_lt_of_lt_one_right hpos (reject_scale_lt_one hgt)
  · intro hsome
    obtain ⟨_, _, hle, hnext⟩ := DormandPrince.step_spec fuel s s' hpos hsome
    exact ⟨hle, hnext⟩
  · intro hsome
    exact (DormandPrince.stepSeq_mono fuels s s2 hpos hsome).1

/-- Witness for C9 at the freshly constructed one-dimensional stepper with
initial step size `1.0`, the empty call sequence and zero fuel. -/
theorem dormandPrince_h_never_grows_witness :
    0 < (DormandPrince.new (1.0 : ℝ) (Vector.zero 1) (constOne 1)).data.h_cur
    ∧ ((((DormandPrince.new (1.0 : ℝ) (Vector.zero 1) (constOne 1)).attempt).2.1 = false →
          (DormandPrince.new (1.0 : ℝ) (Vector.zero 1)
              (constOne 1)).rejectStep.data.h_cur
            < (DormandPrince.new (1.0 : ℝ) (Vector.zero 1) (constOne 1)).data.h_cur)
      ∧ (DormandPrince.step 0 (DormandPrince.new (1.0 : ℝ) (Vector.zero 1) (constOne 1))
            = some (DormandPrince.new (1.0 : ℝ) (Vector.zero 1) (constOne 1)) →
          (DormandPrince.new (1.0 : ℝ) (Vector.zero 1) (constOne 1)).data.h_cur
              ≤ (DormandPrince.new (1.0 : ℝ) (Vector.zero 1) (constOne 1)).data.h_cur
          ∧ (DormandPrince.new (1.0 : ℝ) (Vector.zero 1) (constOne 1)).h_next
              = (DormandPrince.new (1.0 : ℝ) (Vector.zero 1)
                  (constOne 1)).controller.h_next)
      ∧ (DormandPrince.stepSeq [] (DormandPrince.new (1.0 : ℝ) (Vector.zero 1) (constOne 1))
            = some (DormandPrince.new (1.0 : ℝ) (Vector.zero 1) (constOne 1)) →
          (DormandPrince.new (1.0 : ℝ) (Vector.zero 1) (constOne 1)).data.h_cur
            ≤ (DormandPrince.new (1.0 : ℝ) (Vector.zero 1) (constOne 1)).data.h_cur)) :=
  ⟨by norm_num [DormandPrince.new, StepperData.new],
    dormandPrince_h_never_grows 1
      (DormandPrince.new (1.0 : ℝ) (Vector.zero 1) (constOne 1))
      (DormandPrince.new (1.0 : ℝ) (Vector.zero 1) (constOne 1))
      (DormandPrince.new (1.0 : ℝ) (Vector.zero 1) (constOne 1)) 0 []
      (by norm_num [DormandPrince.new, StepperData.new])⟩

end

end Scialg
